import Mathlib

/-!
# Verification of the axios/fetch → Playwright request-adapter translation core

Shallow embedding of the repository's translation core:

* `src/utils/shared.ts` — `isAbsoluteURL`, `combineURLs`, `getStatusText`
* `src/utils/request.ts` — `buildUrl`, `transformHeaders`, `transformParams`,
  `transformData`, `transformRequest`, `parseResponseBody`, `transformResponse`
* `src/axios-adapter.ts` — `createPlaywrightAdapter` (modelled as `playwrightAdapter`)
* `src/fetch-adapter.ts` — `transformHeaders` (modelled as `transformHeadersFetch`),
  `transformBody`, `createPlaywrightFetch` (modelled as `fetchRequestOptions` /
  `playwrightFetch`)

JavaScript records (plain objects used as string-keyed maps) are embedded as
association lists with JS property-assignment semantics: assignment to an
existing key replaces the value in place, assignment to a fresh key appends.
-/

set_option autoImplicit false

universe u v

/-- JS record lookup `m[k]`: the value at the first matching key, `none` when absent. -/
def jsGet {α : Type u} (m : List (String × α)) (k : String) : Option α :=
  (m.find? (fun e => e.1 == k)).map (·.2)

/-- JS record assignment `m[k] = v`: replaces in place when the key exists, appends otherwise. -/
def jsRecordSet {α : Type u} (m : List (String × α)) (k : String) (v : α) :
    List (String × α) :=
  if m.any (fun e => e.1 == k) then
    m.map (fun e => if e.1 == k then (k, v) else e)
  else
    m ++ [(k, v)]

/-- Builds a JS record by assigning each pair in order (duplicate keys: last value wins,
at the position of the first occurrence) — the semantics of `Object.fromEntries` and of
`forEach`-loops that assign into a fresh object. -/
def recordAssignAll {α : Type u} (entries : List (String × α)) : List (String × α) :=
  entries.foldl (fun acc e => jsRecordSet acc e.1 e.2) []

/-- The keys of an embedded JS record. -/
def recordKeys {α : Type u} (m : List (String × α)) : List String :=
  m.map Prod.fst

/-- A JavaScript primitive / untyped value, as far as the translation core inspects it. -/
inductive JSPrim where
  | undef
  | null
  | bool (b : Bool)
  | num (n : Int)
  | str (s : String)
  | objLike
  deriving DecidableEq, Repr

/-- JS `String(value)` on the values the core stringifies (nullish values are dropped
before stringification in every code path, but the function is total). -/
def jsToString : JSPrim → String
  | .undef => "undefined"
  | .null => "null"
  | .bool true => "true"
  | .bool false => "false"
  | .num n => toString n
  | .str s => s
  | .objLike => "[object Object]"

/-- Is the value `undefined` or `null`? (`value !== undefined && value !== null` guards.) -/
def JSPrim.isNullish : JSPrim → Bool
  | .undef => true
  | .null => true
  | _ => false

/-- A value admitted into a `form`/`params` record: string, number or boolean
(the `string | number | boolean` record value type of the Playwright options bag). -/
inductive FormScalar where
  | str (s : String)
  | num (n : Int)
  | bool (b : Bool)
  deriving DecidableEq, Repr

/-- The shared flattening rule of `transformParams` and the form-object branch of
`transformData`: drop nullish values, keep booleans and numbers, stringify the rest. -/
def primToScalar? : JSPrim → Option FormScalar
  | .undef => none
  | .null => none
  | .bool b => some (.bool b)
  | .num n => some (.num n)
  | v => some (.str (jsToString v))

/-- ASCII lower-casing, modelling JS `toLowerCase` on the ASCII strings the core
compares (header names, content types, methods). -/
def strToLower (s : String) : String :=
  String.mk (s.toList.map Char.toLower)

/-- ASCII upper-casing, modelling JS `toUpperCase` on method names. -/
def strToUpper (s : String) : String :=
  String.mk (s.toList.map Char.toUpper)

/-- Split a character list on a separator character (JS `String.prototype.split`). -/
def splitOnChar (c : Char) : List Char → List (List Char)
  | [] => [[]]
  | x :: xs =>
    if x = c then [] :: splitOnChar c xs
    else
      match splitOnChar c xs with
      | [] => [[x]]
      | h :: t => (x :: h) :: t

/-- JS substring test `s.includes(needle)`. -/
def strIncludes (s needle : String) : Bool :=
  s.toList.tails.any (fun t => needle.toList.isPrefixOf t)

/-- `s.includes(needle)` behind optional chaining: `false` when the receiver is absent. -/
def optIncludes (s : Option String) (needle : String) : Bool :=
  match s with
  | some s => strIncludes s needle
  | none => false

/-! ## `src/utils/shared.ts` -/

/-- A character of the scheme tail in `ABSOLUTE_URL_REGEX`: the class `[a-z\d+\-.]`
under the case-insensitive flag. -/
def isSchemeTailChar (c : Char) : Bool :=
  c.isAlpha || c.isDigit || c == '+' || c == '-' || c == '.'

/-- Does the character list start with `"//"`? -/
def startsWithSlashSlash : List Char → Bool
  | '/' :: '/' :: _ => true
  | _ => false

/-- `isAbsoluteURL` from `src/utils/shared.ts`: the test of
`/^([a-z][a-z\d+\-.]*:)?\/\//i` — an optional scheme (an ASCII letter followed by
letters, digits, `+`, `-`, `.` and a colon) and then two slashes, at the start. -/
def isAbsoluteURL (url : String) : Bool :=
  let cs := url.toList
  startsWithSlashSlash cs ||
    (match cs with
     | c :: rest =>
       c.isAlpha &&
         (match rest.dropWhile isSchemeTailChar with
          | ':' :: more => startsWithSlashSlash more
          | _ => false)
     | [] => false)

/-- Strip the trailing run of `'/'` characters (`baseURL.replace(/\/+$/, '')`). -/
def stripTrailingSlashes (s : String) : String :=
  String.mk (s.toList.reverse.dropWhile (· == '/')).reverse

/-- Strip the leading run of `'/'` characters (`relativeURL.replace(/^\/+/, '')`). -/
def stripLeadingSlashes (s : String) : String :=
  String.mk (s.toList.dropWhile (· == '/'))

/-- `combineURLs` from `src/utils/shared.ts`. -/
def combineURLs (baseURL relativeURL : String) : String :=
  if relativeURL = "" then baseURL
  else stripTrailingSlashes baseURL ++ "/" ++ stripLeadingSlashes relativeURL

/-- `getStatusText` from `src/utils/shared.ts`: the fixed status-code → text table,
`"Unknown"` for any code outside it. -/
def getStatusText (status : Nat) : String :=
  match status with
  | 100 => "Continue"
  | 101 => "Switching Protocols"
  | 200 => "OK"
  | 201 => "Created"
  | 202 => "Accepted"
  | 204 => "No Content"
  | 301 => "Moved Permanently"
  | 302 => "Found"
  | 304 => "Not Modified"
  | 400 => "Bad Request"
  | 401 => "Unauthorized"
  | 403 => "Forbidden"
  | 404 => "Not Found"
  | 405 => "Method Not Allowed"
  | 408 => "Request Timeout"
  | 409 => "Conflict"
  | 410 => "Gone"
  | 422 => "Unprocessable Entity"
  | 429 => "Too Many Requests"
  | 500 => "Internal Server Error"
  | 501 => "Not Implemented"
  | 502 => "Bad Gateway"
  | 503 => "Service Unavailable"
  | 504 => "Gateway Timeout"
  | _ => "Unknown"

/-! ## `buildUrl` from `src/utils/request.ts` -/

/-- `buildUrl` from `src/utils/request.ts`. `config.url` and `config.baseURL` are
optional strings; `config.url || ''` turns an absent url into `""`, and the base is
combined only when it is truthy (present and non-empty) and the url is not absolute. -/
def buildUrl (baseURL url? : Option String) : String :=
  let url := url?.getD ""
  let base := baseURL.getD ""
  if base ≠ "" && !isAbsoluteURL url then combineURLs base url else url

example : buildUrl (some "https://api.example.com") (some "/users") =
    "https://api.example.com/users" := by decide
example : buildUrl (some "https://api.example.com///") (some "users") =
    "https://api.example.com/users" := by decide
example : buildUrl (some "https://api.example.com") (some "///users") = "///users" := by
  decide
example : buildUrl (some "https://api.example.com") (some "//other.com/u") =
    "//other.com/u" := by decide
example : buildUrl (some "https://api.example.com") (some "http://other.com/u") =
    "http://other.com/u" := by decide
example : buildUrl (some "https://api.example.com") (some "") = "https://api.example.com" := by
  decide
example : buildUrl none none = "" := by decide
example : isAbsoluteURL "a//x" = false := by decide
example : isAbsoluteURL "HTTP://x" = true := by decide

/-! ## Bodies and the body codec (`transformData` / `transformBody`) -/

/-- A `Blob`-like value inside a native `FormData` collection. `fileName` is `some`
exactly when the value is a `File` (so carries a filename); `blobType` is the blob's
`type` attribute, `""` when unset. -/
structure BlobVal where
  fileName : Option String
  blobType : String
  content : List Nat
  deriving DecidableEq, Repr

/-- One value of a native `FormData` entry: a string or a `Blob`-like value. -/
inductive FormEntryVal where
  | str (s : String)
  | blobv (b : BlobVal)
  deriving DecidableEq, Repr

/-- One value of the `multipart` record handed to the executor: a string, a structured
file descriptor, or an untyped value passed through by the `multipart/form-data` cast
branch of `transformData`. -/
inductive MultiVal where
  | str (s : String)
  | fileDesc (name : String) (mimeType : String) (buffer : BlobVal)
  | prim (p : JSPrim)
  deriving DecidableEq, Repr

/-- The per-entry `FormData` → `multipart` conversion of `transformData`
(`src/utils/request.ts`, lines 86–96): a `Blob` maps to
`{ name: value instanceof File ? value.name : 'blob', mimeType: value.type, buffer: value }`
— note: no default is applied to `mimeType` here. -/
def encodeEntryAxios : FormEntryVal → MultiVal
  | .str s => .str s
  | .blobv b => .fileDesc (b.fileName.getD "blob") b.blobType b

/-- The per-entry `FormData` → `multipart` conversion of `transformBody`
(`src/fetch-adapter.ts`, lines 57–67): as in `encodeEntryAxios`, but
`mimeType: value.type || 'application/octet-stream'`. -/
def encodeEntryFetch : FormEntryVal → MultiVal
  | .str s => .str s
  | .blobv b =>
    .fileDesc (b.fileName.getD "blob")
      (if b.blobType = "" then "application/octet-stream" else b.blobType) b

/-- The request body of an axios config (`config.data`), by the runtime shapes
`transformData` distinguishes: a native `FormData`, a native `URLSearchParams`,
a string, a plain object, a `Buffer`, or some other primitive (embedded here as a
number — `typeof` neither `'string'` nor `'object'`). -/
inductive Body where
  | formData (entries : List (String × FormEntryVal))
  | urlSearchParams (pairs : List (String × String))
  | str (s : String)
  | obj (props : List (String × JSPrim))
  | buffer (bytes : List Nat)
  | num (n : Int)
  deriving DecidableEq, Repr

/-- The `Pick<PlaywrightFetchOptions, 'data' | 'form' | 'multipart'>` result of the
body codec: a bag of three optional fields, all absent by default.  `β` is the type
of the raw `data` payload (`Body` for the axios side, `FetchBody` for the fetch side). -/
structure BodyOut (β : Type u) where
  data : Option β := none
  form : Option (List (String × FormScalar)) := none
  multipart : Option (List (String × MultiVal)) := none
  deriving DecidableEq, Repr

/-- How many of the three body fields are populated. -/
def BodyOut.populatedCount {β : Type u} (o : BodyOut β) : Nat :=
  (if o.data.isSome then 1 else 0) + (if o.form.isSome then 1 else 0) +
    (if o.multipart.isSome then 1 else 0)

/-- One hexadecimal digit, or `none`. -/
def hexDigitVal? (c : Char) : Option Nat :=
  if c.isDigit then some (c.toNat - 48)
  else if 'a' ≤ c ∧ c ≤ 'f' then some (c.toNat - 97 + 10)
  else if 'A' ≤ c ∧ c ≤ 'F' then some (c.toNat - 65 + 10)
  else none

/-- Percent-decoding of one query-string component, with `'+'` decoded to a space —
models the decoding the platform `URLSearchParams` constructor applies. -/
def percentDecode : List Char → List Char
  | [] => []
  | '+' :: rest => ' ' :: percentDecode rest
  | '%' :: a :: b :: rest =>
    match hexDigitVal? a, hexDigitVal? b with
    | some ha, some hb => Char.ofNat (ha * 16 + hb) :: percentDecode rest
    | _, _ => '%' :: percentDecode (a :: b :: rest)
  | c :: rest => c :: percentDecode rest

/-- Models the platform `new URLSearchParams(string)` parse: strip one leading `'?'`,
split on `'&'`, drop empty segments, split each segment at the first `'='` (a segment
with no `'='` gets value `""`), percent-decode keys and values. -/
def parseURLSearchParams (s : String) : List (String × String) :=
  let cs :=
    match s.toList with
    | '?' :: rest => rest
    | cs => cs
  (splitOnChar '&' cs).filterMap fun seg =>
    if seg.isEmpty then none
    else
      let key := seg.takeWhile (· ≠ '=')
      let value :=
        match seg.dropWhile (· ≠ '=') with
        | '=' :: v => v
        | _ => []
      some (String.mk (percentDecode key), String.mk (percentDecode value))

/-- `Object.fromEntries` over string-valued pairs, producing a `form` record. -/
def formOfPairs (pairs : List (String × String)) : List (String × FormScalar) :=
  recordAssignAll (pairs.map fun e => (e.1, FormScalar.str e.2))

/-- The object-flattening loop shared by `transformParams` (lines 47–55) and the
form-urlencoded object branch of `transformData` (lines 110–117): nullish values are
dropped, booleans and numbers kept, everything else stringified. -/
def flattenToForm (props : List (String × JSPrim)) : List (String × FormScalar) :=
  props.foldl
    (fun acc e =>
      match primToScalar? e.2 with
      | some s => jsRecordSet acc e.1 s
      | none => acc)
    []

/-- `Object.entries` of a Node `Buffer`: its indexed bytes as number-valued entries
(a `Buffer` has `typeof data === 'object'`, so the form-urlencoded object branch of
`transformData` can reach it). -/
def bufferEntries (bytes : List Nat) : List (String × JSPrim) :=
  bytes.enum.map fun e => (toString e.1, JSPrim.num (Int.ofNat e.2))

/-- `getContentType` from `src/utils/request.ts`: `config.headers?.get?.('Content-Type')`
(an `AxiosHeaders` case-insensitive lookup), lower-cased when it is a string. -/
def getContentType (headers : List (String × JSPrim)) : Option String :=
  match (headers.find? (fun e => strToLower e.1 == "content-type")).map (·.2) with
  | some (JSPrim.str s) => some (strToLower s)
  | _ => none

/-- `transformData` from `src/utils/request.ts` (lines 73–129). `data = none` stands
for `undefined`/`null`.  Branch order follows the source: native `FormData`, native
`URLSearchParams`, declared `application/x-www-form-urlencoded` (string parse or
object flatten), declared `multipart/form-data` on a non-`Buffer` object (cast
pass-through), otherwise the raw `data` field. -/
def transformData (data : Option Body) (headers : List (String × JSPrim)) :
    BodyOut Body :=
  match data with
  | none => {}
  | some b =>
    let ct := getContentType headers
    match b with
    | .formData entries =>
      { multipart := some (recordAssignAll (entries.map fun e => (e.1, encodeEntryAxios e.2))) }
    | .urlSearchParams pairs => { form := some (formOfPairs pairs) }
    | .str s =>
      if optIncludes ct "application/x-www-form-urlencoded" then
        { form := some (formOfPairs (parseURLSearchParams s)) }
      else
        { data := some (.str s) }
    | .obj props =>
      if optIncludes ct "application/x-www-form-urlencoded" then
        { form := some (flattenToForm props) }
      else if optIncludes ct "multipart/form-data" then
        { multipart := some (props.map fun e => (e.1, MultiVal.prim e.2)) }
      else
        { data := some (.obj props) }
    | .buffer bytes =>
      if optIncludes ct "application/x-www-form-urlencoded" then
        { form := some (flattenToForm (bufferEntries bytes)) }
      else
        { data := some (.buffer bytes) }
    | .num n => { data := some (.num n) }

/-! ## `transformHeaders`, `transformParams`, `transformRequest` -/

/-- `transformHeaders` from `src/utils/request.ts`: flatten the header store to a
string-to-string record, dropping nullish values and stringifying the rest. -/
def transformHeaders (headers : List (String × JSPrim)) : List (String × String) :=
  headers.foldl
    (fun acc e => if e.2.isNullish then acc else jsRecordSet acc e.1 (jsToString e.2))
    []

/-- The `config.params` input of `transformParams`: absent (any falsy value), a native
`URLSearchParams`, or a plain object. -/
inductive ParamsInput where
  | absent
  | search (pairs : List (String × String))
  | obj (props : List (String × JSPrim))
  deriving DecidableEq, Repr

/-- `transformParams` from `src/utils/request.ts` (lines 36–58): absent params give
`undefined`; a `URLSearchParams` is returned as `Object.fromEntries(params)` directly;
a plain object is flattened (nullish values dropped) and an empty result collapses to
`undefined`. -/
def transformParams (params : ParamsInput) : Option (List (String × FormScalar)) :=
  match params with
  | .absent => none
  | .search pairs => some (formOfPairs pairs)
  | .obj props =>
    let p := flattenToForm props
    if p.length > 0 then some p else none

/-- The response representation requested by the caller (`config.responseType`). -/
inductive ResponseType where
  | json
  | text
  | arraybuffer
  | blob
  | stream
  deriving DecidableEq, Repr

/-- The axios request config, restricted to the fields the adapter reads.
`signalAborted` embeds `config.signal?.aborted` (`none` when no token is supplied). -/
structure AxiosConfig where
  url : Option String := none
  baseURL : Option String := none
  method : Option String := none
  headers : List (String × JSPrim) := []
  params : ParamsInput := .absent
  data : Option Body := none
  timeout : Option Int := none
  maxRedirects : Option Int := none
  responseType : Option ResponseType := none
  validateStatus : Option (Nat → Bool) := none
  signalAborted : Option Bool := none

/-- `PlaywrightAdapterOptions` (`src/types.ts`): the adapter-level policy overrides. -/
structure AdapterOptions where
  failOnStatusCode : Option Bool := none
  ignoreHTTPSErrors : Option Bool := none
  maxRedirects : Option Int := none
  maxRetries : Option Int := none
  deriving DecidableEq, Repr

/-- `PlaywrightFetchOptions` as built by `transformRequest`: the canonical options bag
handed to the executor. -/
structure PFetchOptions where
  method : String
  headers : List (String × String)
  params : Option (List (String × FormScalar))
  data : Option Body := none
  form : Option (List (String × FormScalar)) := none
  multipart : Option (List (String × MultiVal)) := none
  timeout : Option Int := none
  failOnStatusCode : Option Bool := none
  ignoreHTTPSErrors : Option Bool := none
  maxRedirects : Option Int := none
  maxRetries : Option Int := none

/-- `transformRequest` from `src/utils/request.ts` (lines 131–165). -/
def transformRequest (config : AxiosConfig) (adapterOptions : Option AdapterOptions) :
    PFetchOptions :=
  let d := transformData config.data config.headers
  { method :=
      match config.method with
      | some m => if m = "" then "GET" else strToUpper m
      | none => "GET"
    headers := transformHeaders config.headers
    params := transformParams config.params
    data := d.data
    form := d.form
    multipart := d.multipart
    timeout :=
      match config.timeout with
      | some t => if 0 < t then some t else none
      | none => none
    failOnStatusCode := adapterOptions.bind (·.failOnStatusCode)
    ignoreHTTPSErrors := adapterOptions.bind (·.ignoreHTTPSErrors)
    maxRedirects :=
      match adapterOptions.bind (·.maxRedirects) with
      | some v => some v
      | none => config.maxRedirects
    maxRetries := adapterOptions.bind (·.maxRetries) }

example :
    transformData (some (.str "a=1&b=2"))
      [("Content-Type", .str "application/x-www-form-urlencoded")] =
      { form := some [("a", .str "1"), ("b", .str "2")] } := by decide
example :
    transformParams (.obj [("valid", .str "v"), ("empty", .undef), ("n", .null)]) =
      some [("valid", .str "v")] := by decide
example : transformParams (.obj [("e", .undef)]) = none := by decide
example : transformParams (.search []) = some [] := by decide
example :
    transformParams (.obj [("d", .objLike)]) = some [("d", .str "[object Object]")] := by
  decide

/-! ## Response translation (`parseResponseBody`, `transformResponse`) -/

/-- The executor response (`APIResponse`): status, status text, header record, and a
body readable through three accessors — `body()` (`bodyBytes`), `text()` (`bodyText`),
`json()` (`jsonVal`, where `none` means the structured parse throws). -/
structure APIResponse where
  status : Nat
  statusText : String
  headers : List (String × String)
  bodyBytes : List Nat
  bodyText : String
  jsonVal : Option JSPrim
  deriving DecidableEq, Repr

/-- One invocation of a body accessor on the executor response. -/
inductive Accessor where
  | bodyA
  | textA
  | jsonA
  deriving DecidableEq, Repr

/-- `response.headers()['content-type'] || ''` as read by `parseResponseBody`. -/
def respContentType (r : APIResponse) : String :=
  (jsGet r.headers "content-type").getD ""

/-- The decoded response data produced by `parseResponseBody`: a binary buffer
(`arraybuffer`/`stream`), a blob tagged with the declared content type, raw text, or a
parsed JSON value. -/
inductive ResponseData where
  | buf (bytes : List Nat)
  | blob (bytes : List Nat) (ctype : String)
  | text (s : String)
  | jsonData (v : JSPrim)
  deriving DecidableEq, Repr

/-- `parseResponseBody` from `src/utils/request.ts` (lines 242–279), instrumented with
the list of body accessors it invokes, in order.  `rt = none` stands for an absent
`config.responseType` (`config.responseType || 'json'`).  In the `json` case, a
JSON-declaring content type leads to `response.json()`, falling back to
`response.text()` when the parse throws; any other content type goes straight to
`response.text()`. -/
def parseResponseBody (resp : APIResponse) (rt : Option ResponseType) :
    ResponseData × List Accessor :=
  let contentType := respContentType resp
  match rt.getD .json with
  | .arraybuffer => (.buf resp.bodyBytes, [.bodyA])
  | .blob => (.blob resp.bodyBytes contentType, [.bodyA])
  | .text => (.text resp.bodyText, [.textA])
  | .stream => (.buf resp.bodyBytes, [.bodyA])
  | .json =>
    if strIncludes contentType "application/json" then
      match resp.jsonVal with
      | some v => (.jsonData v, [.jsonA])
      | none => (.text resp.bodyText, [.jsonA, .textA])
    else
      (.text resp.bodyText, [.textA])

/-- The caller-facing response (`AxiosResponse`): decoded data, status, status text
(with the table fallback), pass-through headers. -/
structure AxiosResponseModel where
  data : ResponseData
  status : Nat
  statusText : String
  headers : List (String × String)
  deriving DecidableEq, Repr

/-- `transformResponse` from `src/utils/request.ts` (lines 284–298), paired with the
accessor trace of its body decode. -/
def transformResponse (resp : APIResponse) (rt : Option ResponseType) :
    AxiosResponseModel × List Accessor :=
  let p := parseResponseBody resp rt
  ({ data := p.1
     status := resp.status
     statusText := if resp.statusText = "" then getStatusText resp.status else resp.statusText
     headers := resp.headers },
   p.2)

example :
    (parseResponseBody
        { status := 200, statusText := "OK",
          headers := [("content-type", "application/json")],
          bodyBytes := [], bodyText := "not json", jsonVal := none } none).1 =
      .text "not json" := by decide
example : getStatusText 204 = "No Content" := by decide
example : getStatusText 999 = "Unknown" := by decide

/-! ## The axios-style entry point (`createPlaywrightAdapter`) -/

/-- The `AxiosError` fields the adapter sets: message, code, the originating config,
the attached decoded response (status validation only), and the underlying cause
(network wrap only; an underlying error is embedded by its message). -/
structure AxiosErrorModel where
  message : String
  code : String
  config : Option AxiosConfig := none
  response : Option AxiosResponseModel := none
  cause : Option String := none

/-- The outcome of the executor call `requestContext.fetch(...)` as the adapter
observes it: a response, a rejection that is already an `AxiosError`, or a rejection
carrying a plain error (embedded by its message). -/
inductive AxiosOutcome where
  | ok (resp : APIResponse)
  | errAxios (e : AxiosErrorModel)
  | err (msg : String)

/-- The adapter's result: a resolved response or a raised `AxiosError`. -/
inductive AdapterResult where
  | success (r : AxiosResponseModel)
  | failure (e : AxiosErrorModel)

/-- The adapter function returned by `createPlaywrightAdapter`
(`src/axios-adapter.ts`, lines 33–87), paired with the number of executor invocations
it performs.  `exec` is the outcome the executor would produce if invoked.
Control flow follows the source: build URL and options, preflight the abort signal
(`Canceled` with zero executor calls), dispatch, decode, validate status when a
predicate is present; an `AxiosError` raised anywhere is re-raised unchanged and any
other rejection is wrapped as a `Network` error. -/
def playwrightAdapter (exec : AxiosOutcome) (config : AxiosConfig)
    (options : Option AdapterOptions) : AdapterResult × Nat :=
  let _url := buildUrl config.baseURL config.url
  let _requestOptions := transformRequest config options
  if config.signalAborted = some true then
    (.failure { message := "Request aborted", code := "ERR_CANCELED", config := some config }, 0)
  else
    match exec with
    | .errAxios e => (.failure e, 1)
    | .err msg =>
      (.failure
        { message := if msg = "" then "Request failed" else msg
          code := "ERR_NETWORK"
          config := some config
          cause := some msg }, 1)
    | .ok resp =>
      let r := (transformResponse resp config.responseType).1
      match config.validateStatus with
      | some validate =>
        if validate r.status then (.success r, 1)
        else
          (.failure
            { message := "Request failed with status code " ++ toString r.status
              code := "ERR_BAD_REQUEST"
              config := some config
              response := some r }, 1)
      | none => (.success r, 1)

/-! ## The fetch-style entry point (`createPlaywrightFetch`) -/

/-- A fetch `RequestInit['body']` by the runtime shapes `transformBody` distinguishes:
native `FormData`, native `URLSearchParams`, a string, or anything else
(`ArrayBuffer`, `Blob`, stream, …) passed through as raw data. -/
inductive FetchBody where
  | formData (entries : List (String × FormEntryVal))
  | urlSearchParams (pairs : List (String × String))
  | str (s : String)
  | other
  deriving DecidableEq, Repr

/-- A fetch `RequestInit['headers']` value: a `Headers` instance, an array of pairs,
or a plain record. -/
inductive FetchHeadersInput where
  | headersObj (hs : List (String × String))
  | arr (pairs : List (String × String))
  | record (hs : List (String × String))
  deriving DecidableEq, Repr

/-- `transformHeaders` from `src/fetch-adapter.ts` (lines 21–41): `Headers` and pair
arrays are flattened into a record by assignment; a plain record is passed through;
an absent value gives `undefined`. -/
def transformHeadersFetch : Option FetchHeadersInput → Option (List (String × String))
  | none => none
  | some (.headersObj hs) => some (recordAssignAll hs)
  | some (.arr pairs) => some (recordAssignAll pairs)
  | some (.record hs) => some hs

/-- The content-type lookup of `transformBody` (`src/fetch-adapter.ts`, line 77):
`headers?.['content-type']?.toLowerCase() || headers?.['Content-Type']?.toLowerCase()`
— exact-key lookups, with JS `||` falling through on an empty string. -/
def fetchContentType (headers : Option (List (String × String))) : Option String :=
  match headers with
  | none => none
  | some hs =>
    let second := (jsGet hs "Content-Type").map strToLower
    match (jsGet hs "content-type").map strToLower with
    | some s => if s = "" then second else some s
    | none => second

/-- `transformBody` from `src/fetch-adapter.ts` (lines 46–85).  `body = none` stands
for `undefined`/`null`.  Branches follow the source: `FormData` → `multipart` (with the
`application/octet-stream` mime default), `URLSearchParams` → `form`, a string under a
declared `application/x-www-form-urlencoded` content type → parsed `form`, anything
else → raw `data`. -/
def transformBody (body : Option FetchBody)
    (headers : Option (List (String × String))) : BodyOut FetchBody :=
  match body with
  | none => {}
  | some b =>
    match b with
    | .formData entries =>
      { multipart := some (recordAssignAll (entries.map fun e => (e.1, encodeEntryFetch e.2))) }
    | .urlSearchParams pairs => { form := some (formOfPairs pairs) }
    | .str s =>
      if optIncludes (fetchContentType headers) "application/x-www-form-urlencoded" then
        { form := some (formOfPairs (parseURLSearchParams s)) }
      else
        { data := some (.str s) }
    | .other => { data := some .other }

/-- A fetch `Request` object, restricted to the fields `playwrightFetch` reads. -/
structure RequestModel where
  url : String
  method : String
  headers : List (String × String)
  deriving DecidableEq, Repr

/-- The first argument of the fetch entry point: a URL (string or `URL` object,
already stringified) or a `Request` object. -/
inductive FetchInput where
  | url (s : String)
  | request (r : RequestModel)
  deriving DecidableEq, Repr

/-- A fetch `RequestInit`, restricted to the fields relevant here.  `signalAborted`
embeds `init.signal?.aborted`; the entry point never reads it. -/
structure RequestInitModel where
  method : Option String := none
  headers : Option FetchHeadersInput := none
  body : Option FetchBody := none
  signalAborted : Option Bool := none
  deriving DecidableEq, Repr

/-- `PlaywrightFetchAdapterOptions` from `src/fetch-adapter.ts`. -/
structure FetchAdapterOptions where
  timeout : Option Int := none
  ignoreHTTPSErrors : Option Bool := none
  maxRedirects : Option Int := none
  maxRetries : Option Int := none
  deriving DecidableEq, Repr

/-- The options bag `playwrightFetch` passes to the executor. -/
structure FetchOptionsBag where
  url : String
  method : String
  headers : Option (List (String × String))
  data : Option FetchBody := none
  form : Option (List (String × FormScalar)) := none
  multipart : Option (List (String × MultiVal)) := none
  timeout : Option Int := none
  ignoreHTTPSErrors : Option Bool := none
  maxRedirects : Option Int := none
  maxRetries : Option Int := none
  deriving DecidableEq, Repr

/-- The headers argument computed at `src/fetch-adapter.ts`, line 134:
`init?.headers || (input instanceof Request ? Object.fromEntries(input.headers) : undefined)`. -/
def fetchHeadersArg (input : FetchInput) (init : Option RequestInitModel) :
    Option FetchHeadersInput :=
  match init.bind (·.headers) with
  | some h => some h
  | none =>
    match input with
    | .request r => some (.record (recordAssignAll r.headers))
    | .url _ => none

/-- The url/method/headers/body translation performed by the function returned by
`createPlaywrightFetch` (`src/fetch-adapter.ts`, lines 128–145) before it invokes the
executor.  The method is `init?.method || (input instanceof Request ? input.method :
'GET')`, forwarded verbatim (no upper-casing). -/
def fetchRequestOptions (input : FetchInput) (init : Option RequestInitModel)
    (options : Option FetchAdapterOptions) : FetchOptionsBag :=
  let url :=
    match input with
    | .request r => r.url
    | .url s => s
  let fallbackMethod :=
    match input with
    | .request r => r.method
    | .url _ => "GET"
  let method :=
    match init.bind (·.method) with
    | some m => if m = "" then fallbackMethod else m
    | none => fallbackMethod
  let headers := transformHeadersFetch (fetchHeadersArg input init)
  let b := transformBody (init.bind (·.body)) headers
  { url := url
    method := method
    headers := headers
    data := b.data
    form := b.form
    multipart := b.multipart
    timeout := options.bind (·.timeout)
    ignoreHTTPSErrors := options.bind (·.ignoreHTTPSErrors)
    maxRedirects := options.bind (·.maxRedirects)
    maxRetries := options.bind (·.maxRetries) }

/-- The standard `Response` built by `toResponse` (`src/fetch-adapter.ts`,
lines 90–101): status, status text with the table fallback, headers, buffered body. -/
structure ResponseModel where
  status : Nat
  statusText : String
  headers : List (String × String)
  body : List Nat
  deriving DecidableEq, Repr

/-- `toResponse` from `src/fetch-adapter.ts`. -/
def toResponse (r : APIResponse) : ResponseModel :=
  { status := r.status
    statusText := if r.statusText = "" then getStatusText r.status else r.statusText
    headers := r.headers
    body := r.bodyBytes }

/-- The executor outcome as the fetch entry point observes it. -/
inductive ExecOutcome where
  | ok (resp : APIResponse)
  | err (msg : String)
  deriving DecidableEq, Repr

/-- The function returned by `createPlaywrightFetch` (`src/fetch-adapter.ts`,
lines 128–148), paired with the number of executor invocations.  There is no
cancellation preflight and no catch: the executor is always invoked exactly once, and
its rejection propagates unchanged. -/
def playwrightFetch (exec : ExecOutcome) (input : FetchInput)
    (init : Option RequestInitModel) (options : Option FetchAdapterOptions) :
    Except String ResponseModel × Nat :=
  let _bag := fetchRequestOptions input init options
  match exec with
  | .ok resp => (.ok (toResponse resp), 1)
  | .err m => (.error m, 1)

/-! ## Record lemmas -/

theorem recordKeys_append {α : Type u} (a b : List (String × α)) :
    recordKeys (a ++ b) = recordKeys a ++ recordKeys b := by
  simp [recordKeys]

theorem jsRecordSet_append {α : Type u} {m : List (String × α)} {k : String} (v : α)
    (h : k ∉ recordKeys m) : jsRecordSet m k v = m ++ [(k, v)] := by
  unfold jsRecordSet
  rw [if_neg]
  intro hc
  rcases List.any_eq_true.mp hc with ⟨e, he, hek⟩
  exact h (List.mem_map.mpr ⟨e, he, by simpa using hek⟩)

theorem foldl_jsRecordSet {α : Type u} :
    ∀ (entries acc : List (String × α)),
      (recordKeys entries).Nodup →
      (∀ k, k ∈ recordKeys acc → k ∉ recordKeys entries) →
      entries.foldl (fun a e => jsRecordSet a e.1 e.2) acc = acc ++ entries
  | [], acc, _, _ => by simp
  | e :: rest, acc, hnd, hdisj => by
    have hke : e.1 ∉ recordKeys acc := fun hmem =>
      hdisj e.1 hmem (by simp [recordKeys])
    have hnd0 : e.1 ∉ recordKeys rest ∧ (recordKeys rest).Nodup := by
      have : (e.1 :: recordKeys rest).Nodup := by simpa [recordKeys] using hnd
      exact ⟨(List.nodup_cons.mp this).1, (List.nodup_cons.mp this).2⟩
    have hdisj2 : ∀ k, k ∈ recordKeys (acc ++ [(e.1, e.2)]) → k ∉ recordKeys rest := by
      intro k hk
      rw [recordKeys_append] at hk
      rcases List.mem_append.mp hk with h1 | h2
      · intro hr
        exact hdisj k h1 (by simp [recordKeys] at hr ⊢; exact Or.inr hr)
      · have hke2 : k = e.1 := by simpa [recordKeys] using h2
        subst hke2
        exact hnd0.1
    calc (e :: rest).foldl (fun a e => jsRecordSet a e.1 e.2) acc
        = rest.foldl (fun a e => jsRecordSet a e.1 e.2) (jsRecordSet acc e.1 e.2) := by
          simp
      _ = rest.foldl (fun a e => jsRecordSet a e.1 e.2) (acc ++ [(e.1, e.2)]) := by
          rw [jsRecordSet_append e.2 hke]
      _ = (acc ++ [(e.1, e.2)]) ++ rest := foldl_jsRecordSet rest _ hnd0.2 hdisj2
      _ = acc ++ e :: rest := by simp

theorem recordAssignAll_eq_self {α : Type u} (entries : List (String × α))
    (h : (recordKeys entries).Nodup) : recordAssignAll entries = entries := by
  have h2 := foldl_jsRecordSet entries [] h (by simp [recordKeys])
  simpa [recordAssignAll] using h2

theorem recordKeys_mapVal {α : Type u} {β : Type v} (f : α → β) (l : List (String × α)) :
    recordKeys (l.map fun e => (e.1, f e.2)) = recordKeys l := by
  simp [recordKeys, List.map_map]

theorem jsGet_mapVal {α : Type u} {β : Type v} (f : α → β) :
    ∀ (l : List (String × α)) (k : String) (v : α),
      (recordKeys l).Nodup → (k, v) ∈ l →
      jsGet (l.map fun e => (e.1, f e.2)) k = some (f v)
  | [], k, v, _, hmem => absurd hmem (List.not_mem_nil _)
  | e :: rest, k, v, hnd, hmem => by
    have hnd0 : e.1 ∉ recordKeys rest ∧ (recordKeys rest).Nodup := by
      have : (e.1 :: recordKeys rest).Nodup := by simpa [recordKeys] using hnd
      exact ⟨(List.nodup_cons.mp this).1, (List.nodup_cons.mp this).2⟩
    rcases List.mem_cons.mp hmem with heq | hrest
    · subst heq
      simp [jsGet]
    · have hne : (e.1 == k) = false := by
        refine beq_eq_false_iff_ne.mpr fun hkk => hnd0.1 ?_
        subst hkk
        exact List.mem_map.mpr ⟨(e.1, v), hrest, rfl⟩
      have ih := jsGet_mapVal f rest k v hnd0.2 hrest
      simpa [jsGet, List.find?, hne] using ih

theorem recordKeys_unique {α : Type u} :
    ∀ (l : List (String × α)) (k : String) (a b : α),
      (recordKeys l).Nodup → (k, a) ∈ l → (k, b) ∈ l → a = b
  | [], _, _, _, _, ha, _ => absurd ha (List.not_mem_nil _)
  | e :: rest, k, a, b, hnd, ha, hb => by
    have hnd0 : e.1 ∉ recordKeys rest ∧ (recordKeys rest).Nodup := by
      have : (e.1 :: recordKeys rest).Nodup := by simpa [recordKeys] using hnd
      exact ⟨(List.nodup_cons.mp this).1, (List.nodup_cons.mp this).2⟩
    rcases List.mem_cons.mp ha with ha1 | ha2 <;> rcases List.mem_cons.mp hb with hb1 | hb2
    · exact congrArg Prod.snd (ha1.trans hb1.symm)
    · exact absurd (List.mem_map.mpr ⟨(k, b), hb2, by simp [← ha1]⟩) hnd0.1
    · exact absurd (List.mem_map.mpr ⟨(k, a), ha2, by simp [← hb1]⟩) hnd0.1
    · exact recordKeys_unique rest k a b hnd0.2 ha2 hb2

theorem jsGet_map_keyUpdate_ne {α : Type u} {k2 k : String} (v : α) (h : k2 ≠ k) :
    ∀ m : List (String × α),
      jsGet (m.map fun e => if e.1 == k2 then (k2, v) else e) k = jsGet m k
  | [] => rfl
  | e :: rest => by
    by_cases he : e.1 = k2
    · have h1 : (e.1 == k2) = true := beq_iff_eq.mpr he
      have h2 : (k2 == k) = false := beq_eq_false_iff_ne.mpr h
      have h3 : (e.1 == k) = false := beq_eq_false_iff_ne.mpr (he ▸ h)
      simpa [jsGet, List.find?, h1, h2, h3] using jsGet_map_keyUpdate_ne v h rest
    · have h1 : (e.1 == k2) = false := beq_eq_false_iff_ne.mpr he
      by_cases hek : e.1 = k
      · simp [jsGet, List.find?, h1, beq_iff_eq.mpr hek]
      · simpa [jsGet, List.find?, h1, beq_eq_false_iff_ne.mpr hek] using
          jsGet_map_keyUpdate_ne v h rest

theorem jsGet_append_single_ne {α : Type u} {k2 k : String} (v : α) (h : k2 ≠ k) :
    ∀ m : List (String × α), jsGet (m ++ [(k2, v)]) k = jsGet m k
  | [] => by simp [jsGet, List.find?, beq_eq_false_iff_ne.mpr h]
  | e :: rest => by
    by_cases hek : e.1 = k
    · simp [jsGet, List.find?, beq_iff_eq.mpr hek]
    · simpa [jsGet, List.find?, beq_eq_false_iff_ne.mpr hek] using
        jsGet_append_single_ne v h rest

theorem jsGet_jsRecordSet_ne {α : Type u} (m : List (String × α)) {k2 k : String}
    (v : α) (h : k2 ≠ k) : jsGet (jsRecordSet m k2 v) k = jsGet m k := by
  unfold jsRecordSet
  split
  · exact jsGet_map_keyUpdate_ne v h m
  · exact jsGet_append_single_ne v h m

theorem primToScalar?_eq_none_of_nullish (v : JSPrim) (h : v.isNullish = true) :
    primToScalar? v = none := by
  cases v <;> simp_all [JSPrim.isNullish, primToScalar?]

theorem jsGet_flatten_aux (k : String) :
    ∀ (props : List (String × JSPrim)) (acc : List (String × FormScalar)),
      (∀ v, (k, v) ∈ props → v.isNullish = true) →
      jsGet acc k = none →
      jsGet
        (props.foldl
          (fun acc e =>
            match primToScalar? e.2 with
            | some s => jsRecordSet acc e.1 s
            | none => acc)
          acc) k = none
  | [], acc, _, hacc => by simpa using hacc
  | e :: rest, acc, hall, hacc => by
    have hall2 : ∀ v, (k, v) ∈ rest → v.isNullish = true := fun v hv =>
      hall v (List.mem_cons_of_mem _ hv)
    rcases hs : primToScalar? e.2 with _ | s
    · simpa [List.foldl_cons, hs] using jsGet_flatten_aux k rest acc hall2 hacc
    · have hke : e.1 ≠ k := by
        intro hkk
        have : e.2.isNullish = true := hall e.2 (by rw [← hkk]; exact List.mem_cons_self _ _)
        rw [primToScalar?_eq_none_of_nullish e.2 this] at hs
        cases hs
      have hacc2 : jsGet (jsRecordSet acc e.1 s) k = none := by
        rw [jsGet_jsRecordSet_ne acc s hke]
        exact hacc
      simpa [List.foldl_cons, hs] using jsGet_flatten_aux k rest _ hall2 hacc2

theorem jsGet_flattenToForm_nullish (props : List (String × JSPrim)) (k : String)
    (v : JSPrim) (hnd : (recordKeys props).Nodup) (hmem : (k, v) ∈ props)
    (hn : v.isNullish = true) : jsGet (flattenToForm props) k = none := by
  have hall : ∀ v2, (k, v2) ∈ props → v2.isNullish = true := by
    intro v2 h2
    rw [recordKeys_unique props k v2 v hnd h2 hmem]
    exact hn
  exact jsGet_flatten_aux k props [] hall rfl

/-! ## Claims -/

/-- C2: for every `baseURL` and every `url` matching the absolute-URL pattern
(`/^([a-z][a-z\d+\-.]*:)?\/\//i` — an explicit scheme followed by `//`, a
protocol-relative `//` prefix, or two-or-more leading slashes), `buildUrl` returns
`url` unchanged, character for character, regardless of `baseURL`. -/
theorem buildUrl_absolute_passthrough (baseURL : Option String) (url : String)
    (h : isAbsoluteURL url = true) : buildUrl baseURL (some url) = url := by
  simp [buildUrl, h]

theorem buildUrl_absolute_passthrough_witness :
    isAbsoluteURL "//other.com/users" = true ∧
      buildUrl (some "https://api.example.com") (some "//other.com/users") =
        "//other.com/users" :=
  ⟨by decide,
   buildUrl_absolute_passthrough (some "https://api.example.com") "//other.com/users"
     (by decide)⟩

/-- C3: for every body value and every header mapping, the body codec — both the
axios-side `transformData` and the fetch-side `transformBody` — populates at most one
of the three fields `{data (raw), form, multipart}` of the translated options bag. -/
theorem body_codec_at_most_one :
    (∀ (data : Option Body) (headers : List (String × JSPrim)),
       (transformData data headers).populatedCount ≤ 1) ∧
    (∀ (body : Option FetchBody) (headers : Option (List (String × String))),
       (transformBody body headers).populatedCount ≤ 1) := by
  constructor
  · intro data headers
    rcases data with _ | b
    · simp [transformData, BodyOut.populatedCount]
    · cases b <;> simp only [transformData] <;> (try split_ifs) <;>
        simp [BodyOut.populatedCount]
  · intro body headers
    rcases body with _ | b
    · simp [transformBody, BodyOut.populatedCount]
    · cases b <;> simp only [transformBody] <;> (try split_ifs) <;>
        simp [BodyOut.populatedCount]

/-- C4: under the `json` representation (also the default), a response whose
content type declares JSON but whose body fails the structured parse decodes to the
raw text with no error raised; a response whose content type does not declare JSON is
never parsed (the `json()` accessor is not invoked) and decodes to the raw text. -/
theorem parseResponseBody_json_fallback (resp : APIResponse) (rt : Option ResponseType)
    (hrt : rt.getD .json = .json) :
    (strIncludes (respContentType resp) "application/json" = true →
       resp.jsonVal = none →
       parseResponseBody resp rt = (.text resp.bodyText, [.jsonA, .textA])) ∧
    (strIncludes (respContentType resp) "application/json" = false →
       parseResponseBody resp rt = (.text resp.bodyText, [.textA]) ∧
       Accessor.jsonA ∉ (parseResponseBody resp rt).2) := by
  constructor
  · intro hct hjson
    simp [parseResponseBody, hrt, hct, hjson]
  · intro hct
    constructor
    · simp [parseResponseBody, hrt, hct]
    · simp [parseResponseBody, hrt, hct]

theorem parseResponseBody_json_fallback_witness :
    strIncludes
        (respContentType
          { status := 200, statusText := "OK",
            headers := [("content-type", "application/json")], bodyBytes := [],
            bodyText := "not json", jsonVal := none })
        "application/json" = true ∧
      parseResponseBody
          { status := 200, statusText := "OK",
            headers := [("content-type", "application/json")], bodyBytes := [],
            bodyText := "not json", jsonVal := none } none =
        (.text "not json", [.jsonA, .textA]) :=
  ⟨by decide,
   (parseResponseBody_json_fallback
       { status := 200, statusText := "OK",
         headers := [("content-type", "application/json")], bodyBytes := [],
         bodyText := "not json", jsonVal := none } none rfl).1
     (by decide) rfl⟩

/-- C5: with no caller-supplied status-validation predicate the axios entry point
resolves successfully for any executor status (the decoded response carries that
status); with a predicate that rejects the status it raises an `ERR_BAD_REQUEST`
(status-validation) error whose message is
`"Request failed with status code {status}"` and whose attached decoded response
carries that status. -/
theorem adapter_status_validation (resp : APIResponse) (config : AxiosConfig)
    (options : Option AdapterOptions) (hab : config.signalAborted ≠ some true) :
    (config.validateStatus = none →
       playwrightAdapter (.ok resp) config options =
         (.success (transformResponse resp config.responseType).1, 1) ∧
       (transformResponse resp config.responseType).1.status = resp.status) ∧
    (∀ v : Nat → Bool, config.validateStatus = some v → v resp.status = false →
       playwrightAdapter (.ok resp) config options =
         (.failure
           { message := "Request failed with status code " ++ toString resp.status
             code := "ERR_BAD_REQUEST"
             config := some config
             response := some (transformResponse resp config.responseType).1 }, 1) ∧
       (transformResponse resp config.responseType).1.status = resp.status) := by
  constructor
  · intro hv
    refine ⟨?_, rfl⟩
    unfold playwrightAdapter
    rw [if_neg hab, hv]
  · intro v hv hreject
    refine ⟨?_, rfl⟩
    unfold playwrightAdapter
    rw [if_neg hab, hv]
    simp only [transformResponse]
    rw [hreject]
    simp

theorem adapter_status_validation_witness :
    playwrightAdapter
        (.ok { status := 404, statusText := "", headers := [], bodyBytes := [],
               bodyText := "", jsonVal := some .objLike })
        { validateStatus := some (fun s => decide (s < 300)) } none =
      (.failure
        { message := "Request failed with status code 404"
          code := "ERR_BAD_REQUEST"
          config := some { validateStatus := some (fun s => decide (s < 300)) }
          response := some
            { data := .text "", status := 404, statusText := "Not Found",
              headers := [] } }, 1) :=
  ((adapter_status_validation
      { status := 404, statusText := "", headers := [], bodyBytes := [],
        bodyText := "", jsonVal := some .objLike }
      { validateStatus := some (fun s => decide (s < 300)) } none
      (by simp)).2 (fun s => decide (s < 300)) rfl (by decide)).1

/-- C6: a rejection during dispatch that is already an `AxiosError` is re-raised
unchanged (never double-wrapped); any other rejection is wrapped as an `ERR_NETWORK`
error whose message is the underlying message, or `"Request failed"` when that message
is empty, with the underlying error retained as the cause and the originating config
attached. -/
theorem adapter_error_mapping (config : AxiosConfig) (options : Option AdapterOptions)
    (hab : config.signalAborted ≠ some true) :
    (∀ e : AxiosErrorModel,
       playwrightAdapter (.errAxios e) config options = (.failure e, 1)) ∧
    (∀ msg : String,
       playwrightAdapter (.err msg) config options =
         (.failure
           { message := if msg = "" then "Request failed" else msg
             code := "ERR_NETWORK"
             config := some config
             cause := some msg }, 1)) := by
  constructor
  · intro e
    unfold playwrightAdapter
    rw [if_neg hab]
  · intro msg
    unfold playwrightAdapter
    rw [if_neg hab]

theorem adapter_error_mapping_witness :
    playwrightAdapter (.errAxios { message := "Custom error", code := "CUSTOM_CODE" })
        {} none =
      (.failure { message := "Custom error", code := "CUSTOM_CODE" }, 1) ∧
    playwrightAdapter (.err "") {} none =
      (.failure
        { message := "Request failed", code := "ERR_NETWORK", config := some {},
          cause := some "" }, 1) ∧
    playwrightAdapter (.err "Network error") {} none =
      (.failure
        { message := "Network error", code := "ERR_NETWORK", config := some {},
          cause := some "Network error" }, 1) :=
  ⟨(adapter_error_mapping {} none (by simp)).1 _,
   (adapter_error_mapping {} none (by simp)).2 "",
   (adapter_error_mapping {} none (by simp)).2 "Network error"⟩

/-- C1 counterexample: the fetch-style entry point performs no cancellation
preflight — with a request whose `init.signal` is already aborted it still invokes
the executor (one call, not zero) and resolves with the executor's response instead
of terminating with a `Canceled` error. -/
theorem fetch_entry_ignores_abort_counterexample :
    (playwrightFetch
        (.ok { status := 200, statusText := "OK", headers := [], bodyBytes := [],
               bodyText := "", jsonVal := none })
        (.url "https://api.example.com/users") (some { signalAborted := some true })
        none).2 = 1 ∧
    (playwrightFetch
        (.ok { status := 200, statusText := "OK", headers := [], bodyBytes := [],
               bodyText := "", jsonVal := none })
        (.url "https://api.example.com/users") (some { signalAborted := some true })
        none).1 =
      .ok { status := 200, statusText := "OK", headers := [], body := [] } := by
  constructor <;> rfl

/-- C1 amended: only the axios-style entry point preflights cancellation — with an
already-aborted token it terminates with a `Canceled` error (`ERR_CANCELED`, message
`"Request aborted"`) and zero executor calls, whatever the executor would have done;
the fetch-style entry point ignores the token and always invokes the executor exactly
once. -/
theorem cancellation_preflight_amended :
    (∀ (exec : AxiosOutcome) (config : AxiosConfig) (options : Option AdapterOptions),
       config.signalAborted = some true →
       playwrightAdapter exec config options =
         (.failure
           { message := "Request aborted", code := "ERR_CANCELED",
             config := some config }, 0)) ∧
    (∀ (exec : ExecOutcome) (input : FetchInput) (init : Option RequestInitModel)
       (options : Option FetchAdapterOptions),
       (playwrightFetch exec input init options).2 = 1) := by
  constructor
  · intro exec config options hab
    unfold playwrightAdapter
    rw [if_pos hab]
  · intro exec input init options
    cases exec <;> rfl

theorem cancellation_preflight_amended_witness :
    playwrightAdapter
        (.ok { status := 200, statusText := "OK", headers := [], bodyBytes := [],
               bodyText := "", jsonVal := none })
        { signalAborted := some true } none =
      (.failure
        { message := "Request aborted", code := "ERR_CANCELED",
          config := some { signalAborted := some true } }, 0) :=
  (cancellation_preflight_amended.1
    (.ok { status := 200, statusText := "OK", headers := [], bodyBytes := [],
           bodyText := "", jsonVal := none })
    { signalAborted := some true } none rfl)

/-- C7 counterexample: the axios-side `transformData` applies no
`application/octet-stream` default — a `FormData` holding a file-like value with an
unset type maps to a descriptor whose `mimeType` is the empty string, not
`"application/octet-stream"` (that default exists only in the fetch-side
`transformBody`). -/
theorem axios_multipart_mime_counterexample :
    (transformData
        (some (.formData
          [("file", .blobv { fileName := none, blobType := "", content := [1] })]))
        []).multipart =
      some [("file",
        .fileDesc "blob" "" { fileName := none, blobType := "", content := [1] })] ∧
    "" ≠ "application/octet-stream" := by
  constructor
  · rfl
  · decide

/-- C7 amended: both body transforms map each `FormData` entry independently — a
file-like field to `{ name, mimeType, buffer }` with `name` defaulting to `"blob"`
when it carries no filename, and a plain field to its string value.  The
`application/octet-stream` default for an unset `mimeType` is applied by the
fetch-side `transformBody` only; the axios-side `transformData` forwards the
file-like value's type verbatim (empty when unset). -/
theorem multipart_file_descriptor_amended
    (entries : List (String × FormEntryVal)) (hnd : (recordKeys entries).Nodup) :
    (∀ hs : Option (List (String × String)),
       (transformBody (some (.formData entries)) hs).multipart =
         some (entries.map fun e => (e.1, encodeEntryFetch e.2))) ∧
    (∀ headers : List (String × JSPrim),
       (transformData (some (.formData entries)) headers).multipart =
         some (entries.map fun e => (e.1, encodeEntryAxios e.2))) ∧
    (∀ (k : String) (b : BlobVal) (hs : Option (List (String × String))),
       (k, .blobv b) ∈ entries →
       jsGet ((transformBody (some (.formData entries)) hs).multipart.getD []) k =
         some (.fileDesc (b.fileName.getD "blob")
           (if b.blobType = "" then "application/octet-stream" else b.blobType) b)) ∧
    (∀ (k : String) (b : BlobVal) (headers : List (String × JSPrim)),
       (k, .blobv b) ∈ entries →
       jsGet ((transformData (some (.formData entries)) headers).multipart.getD []) k =
         some (.fileDesc (b.fileName.getD "blob") b.blobType b)) ∧
    (∀ (k s : String) (hs : Option (List (String × String)))
       (headers : List (String × JSPrim)),
       (k, .str s) ∈ entries →
       jsGet ((transformBody (some (.formData entries)) hs).multipart.getD []) k =
           some (.str s) ∧
       jsGet ((transformData (some (.formData entries)) headers).multipart.getD []) k =
           some (.str s)) := by
  have hndm : ∀ {β : Type} (f : FormEntryVal → β),
      (recordKeys (entries.map fun e => (e.1, f e.2))).Nodup := by
    intro β f
    rw [recordKeys_mapVal]
    exact hnd
  have hfetch : ∀ hs : Option (List (String × String)),
      (transformBody (some (.formData entries)) hs).multipart =
        some (entries.map fun e => (e.1, encodeEntryFetch e.2)) := by
    intro hs
    simp only [transformBody]
    rw [recordAssignAll_eq_self _ (hndm encodeEntryFetch)]
  have haxios : ∀ headers : List (String × JSPrim),
      (transformData (some (.formData entries)) headers).multipart =
        some (entries.map fun e => (e.1, encodeEntryAxios e.2)) := by
    intro headers
    simp only [transformData]
    rw [recordAssignAll_eq_self _ (hndm encodeEntryAxios)]
  refine ⟨hfetch, haxios, ?_, ?_, ?_⟩
  · intro k b hs hmem
    rw [hfetch hs]
    simpa [encodeEntryFetch] using jsGet_mapVal encodeEntryFetch entries k _ hnd hmem
  · intro k b headers hmem
    rw [haxios headers]
    simpa [encodeEntryAxios] using jsGet_mapVal encodeEntryAxios entries k _ hnd hmem
  · intro k s hs headers hmem
    constructor
    · rw [hfetch hs]
      simpa [encodeEntryFetch] using jsGet_mapVal encodeEntryFetch entries k _ hnd hmem
    · rw [haxios headers]
      simpa [encodeEntryAxios] using jsGet_mapVal encodeEntryAxios entries k _ hnd hmem

theorem multipart_file_descriptor_amended_witness :
    jsGet
        ((transformBody
            (some (.formData
              [("file", .blobv { fileName := none, blobType := "", content := [1] }),
               ("name", .str "John")]))
            none).multipart.getD [])
        "file" =
      some (.fileDesc "blob" "application/octet-stream"
        { fileName := none, blobType := "", content := [1] }) ∧
    jsGet
        ((transformData
            (some (.formData
              [("file", .blobv { fileName := none, blobType := "", content := [1] }),
               ("name", .str "John")]))
            []).multipart.getD [])
        "name" =
      some (.str "John") := by
  constructor
  · exact ((multipart_file_descriptor_amended
        [("file", .blobv { fileName := none, blobType := "", content := [1] }),
         ("name", .str "John")] (by decide)).2.2.1
      "file" { fileName := none, blobType := "", content := [1] } none (by decide))
  · exact (((multipart_file_descriptor_amended
        [("file", .blobv { fileName := none, blobType := "", content := [1] }),
         ("name", .str "John")] (by decide)).2.2.2.2
      "name" "John" none [] (by decide)).2)

/-- C8 counterexample: a native query-parameter collection that is empty does not
collapse to "absent" — `transformParams` returns an empty mapping (`some []`), not
`undefined` (`none`), because the `URLSearchParams` path returns
`Object.fromEntries(params)` without the emptiness check. -/
theorem params_empty_search_counterexample :
    transformParams (.search []) = some [] ∧ transformParams (.search []) ≠ none := by
  constructor <;> decide

/-- C8 amended: on the plain-mapping path, entries with null/undefined values are
absent from the output and an empty normalized result makes the translated params
field absent (`undefined`); the native query-parameter collection path instead
returns the flattened entries directly — an empty mapping (not absence) when the
collection is empty. -/
theorem transformParams_amended :
    (∀ (props : List (String × JSPrim)) (k : String) (v : JSPrim)
       (m : List (String × FormScalar)),
       (recordKeys props).Nodup → (k, v) ∈ props → v.isNullish = true →
       transformParams (.obj props) = some m → jsGet m k = none) ∧
    (∀ props : List (String × JSPrim),
       flattenToForm props = [] → transformParams (.obj props) = none) ∧
    (∀ pairs : List (String × String),
       transformParams (.search pairs) = some (formOfPairs pairs)) := by
  refine ⟨?_, ?_, fun pairs => rfl⟩
  · intro props k v m hnd hmem hn hsome
    have hm : m = flattenToForm props := by
      simp only [transformParams] at hsome
      split at hsome
      · exact (Option.some_inj.mp hsome).symm
      · cases hsome
    rw [hm]
    exact jsGet_flattenToForm_nullish props k v hnd hmem hn
  · intro props hempty
    simp [transformParams, hempty]

theorem transformParams_amended_witness :
    jsGet [("b", FormScalar.str "x")] "a" = none ∧
    transformParams (.obj [("e", .undef)]) = none ∧
    transformParams (.search []) = some (formOfPairs []) :=
  ⟨transformParams_amended.1 [("a", .null), ("b", .str "x")] "a" .null
      [("b", FormScalar.str "x")] (by decide) (by decide) (by decide) (by decide),
   transformParams_amended.2.1 [("e", .undef)] (by decide),
   transformParams_amended.2.2 []⟩

/-- C9 counterexample: when the content type declares JSON but the body is not valid
JSON, the response translation invokes two body accessors in one call — `json()`
(which throws) and then `text()` — so the body source is read twice, not exactly
once. -/
theorem accessor_single_read_counterexample :
    (parseResponseBody
        { status := 200, statusText := "OK",
          headers := [("content-type", "application/json")], bodyBytes := [],
          bodyText := "not json", jsonVal := none } none).2 =
      [.jsonA, .textA] ∧
    (parseResponseBody
        { status := 200, statusText := "OK",
          headers := [("content-type", "application/json")], bodyBytes := [],
          bodyText := "not json", jsonVal := none } none).2.length ≠ 1 := by
  constructor <;> decide

/-- C9 amended: every response-translation call invokes exactly one body accessor,
except the JSON-parse-failure fallback (requested representation `json`, JSON-declaring
content type, parse throws), where exactly two are invoked: `json()` then `text()`. -/
theorem accessor_reads_amended (resp : APIResponse) (rt : Option ResponseType) :
    (parseResponseBody resp rt).2.length = 1 ∨
    (rt.getD .json = .json ∧
     strIncludes (respContentType resp) "application/json" = true ∧
     resp.jsonVal = none ∧
     (parseResponseBody resp rt).2 = [.jsonA, .textA]) := by
  rcases hrt : rt.getD .json with _ | _ | _ | _ | _
  case json =>
    by_cases hct : strIncludes (respContentType resp) "application/json" = true
    · rcases hjv : resp.jsonVal with _ | v
      · exact Or.inr ⟨rfl, hct, rfl, by simp [parseResponseBody, hrt, hct, hjv]⟩
      · exact Or.inl (by simp [parseResponseBody, hrt, hct, hjv])
    · have hct2 : strIncludes (respContentType resp) "application/json" = false :=
        Bool.eq_false_iff.mpr hct
      exact Or.inl (by simp [parseResponseBody, hrt, hct2])
  all_goals exact Or.inl (by simp [parseResponseBody, hrt])

/-- C10: the method the fetch entry point forwards to the executor is the init
options' method when provided (non-empty), otherwise the `Request` object's method
when the input is a `Request`, otherwise the literal `"GET"`; the chosen string is
forwarded verbatim with no upper-casing — unlike the axios-side `transformRequest`,
which upper-cases. -/
theorem fetch_method_selection :
    (∀ (input : FetchInput) (init : Option RequestInitModel)
       (options : Option FetchAdapterOptions) (m : String),
       init.bind RequestInitModel.method = some m → m ≠ "" →
       (fetchRequestOptions input init options).method = m) ∧
    (∀ (r : RequestModel) (init : Option RequestInitModel)
       (options : Option FetchAdapterOptions),
       init.bind RequestInitModel.method = none →
       (fetchRequestOptions (.request r) init options).method = r.method) ∧
    (∀ (s : String) (init : Option RequestInitModel)
       (options : Option FetchAdapterOptions),
       init.bind RequestInitModel.method = none →
       (fetchRequestOptions (.url s) init options).method = "GET") ∧
    (fetchRequestOptions (.url "https://a.com/x") (some { method := some "post" })
        none).method = "post" ∧
    (transformRequest { method := some "post", url := some "/x" } none).method =
      "POST" := by
  refine ⟨?_, ?_, ?_, by decide, by decide⟩
  · intro input init options m hm hne
    simp [fetchRequestOptions, hm, hne]
  · intro r init options hm
    simp [fetchRequestOptions, hm]
  · intro s init options hm
    simp [fetchRequestOptions, hm]

theorem fetch_method_selection_witness :
    (fetchRequestOptions
        (.request { url := "https://a.com/x", method := "POST", headers := [] })
        (some { method := some "delete" }) none).method = "delete" ∧
    (fetchRequestOptions
        (.request { url := "https://a.com/x", method := "POST", headers := [] })
        none none).method = "POST" ∧
    (fetchRequestOptions (.url "https://a.com/x") none none).method = "GET" :=
  ⟨fetch_method_selection.1
      (.request { url := "https://a.com/x", method := "POST", headers := [] })
      (some { method := some "delete" }) none "delete" rfl (by decide),
   fetch_method_selection.2.1
      { url := "https://a.com/x", method := "POST", headers := [] } none none rfl,
   fetch_method_selection.2.2.1 "https://a.com/x" none none rfl⟩
